import Mathlib

/-!
Verification development for the X11 window-system bridge header
(`juce_linux_XWindowSystem.h`).  The header declares the data members of the
in-scope state machines (touch-id allocation, XSETTINGS parsing, clipboard
ownership, drag-and-drop); the member-function bodies live in a translation
unit that is not part of this tree, so each operation is modelled from the
specification over the data layout the header declares.
-/

namespace JuceX11

/-! ## Touch-ID Allocator

The header declares `std::map<int,int> xiTouchIds`, `std::set<int>
xiFreeTouchIds` and `int currentTouchIdx`.  The map binds a device-reported
touch identifier to a dense slot; the set is the pool of freed slots (a
`std::set` iterates in increasing order, so its first element is the
minimum); the counter mints fresh slots when the pool is empty. -/

/-- Minimum of a list of naturals, `none` on the empty list.  Models taking
`*begin()` of the ordered `std::set` of free slots. -/
def natMin : List Nat → Option Nat
  | [] => none
  | x :: xs =>
    match natMin xs with
    | none => some x
    | some m => some (min x m)

/-- State of the touch-id allocator: the fields `xiTouchIds`,
`xiFreeTouchIds` and `currentTouchIdx` of `XWindowSystem`.  The map is an
association list from device id to slot; the free pool is a duplicate-free
list of slots. -/
structure TouchState where
  xiTouchIds : List (Int × Nat)
  xiFreeTouchIds : List Nat
  currentTouchIdx : Nat
  deriving Repr, DecidableEq

/-- The empty allocator, as constructed by `XWindowSystem` (empty map, empty
free set, counter 0). -/
def initTouchState : TouchState := ⟨[], [], 0⟩

/-- Modelled from the spec: the body of the touch-slot allocation performed
by `handleTouchPressEvent` is not in the tree.  Per the spec, `allocate
(deviceId)` returns the existing slot when `deviceId` is already bound;
otherwise it takes the lowest-numbered free slot (the minimum of the free
pool when non-empty, else a fresh slot from the counter), binds `deviceId`
to it and returns it. -/
def allocateTouch (d : Int) (s : TouchState) : Nat × TouchState :=
  match s.xiTouchIds.lookup d with
  | some k => (k, s)
  | none =>
    match natMin s.xiFreeTouchIds with
    | some m =>
      (m, { s with xiTouchIds := (d, m) :: s.xiTouchIds,
                   xiFreeTouchIds := s.xiFreeTouchIds.erase m })
    | none =>
      (s.currentTouchIdx,
       { s with xiTouchIds := (d, s.currentTouchIdx) :: s.xiTouchIds,
                currentTouchIdx := s.currentTouchIdx + 1 })

/-- Modelled from the spec: the body of the touch-slot release performed by
`handleTouchReleaseEvent` is not in the tree.  Per the spec, `release
(deviceId)` removes the binding and returns its slot to the free pool, and
releasing an unbound identifier is a no-op. -/
def releaseTouch (d : Int) (s : TouchState) : TouchState :=
  match s.xiTouchIds.lookup d with
  | some k =>
    { s with xiTouchIds := s.xiTouchIds.filter (fun p => decide (p.1 ≠ d)),
             xiFreeTouchIds := k :: s.xiFreeTouchIds }
  | none => s

/-- The slots currently bound by the allocator. -/
def slotsOf (s : TouchState) : List Nat := s.xiTouchIds.map Prod.snd

/-- The device identifiers currently live in the allocator. -/
def devicesOf (s : TouchState) : List Int := s.xiTouchIds.map Prod.fst

/-- Well-formedness of a touch-allocator state: device ids and slots are
each duplicate-free (so the binding is a bijection), the free pool is
duplicate-free and disjoint from the bound slots, and the slots below the
counter are exactly the bound and free ones. -/
def TouchInv (s : TouchState) : Prop :=
  (devicesOf s).Nodup ∧ (slotsOf s).Nodup ∧ s.xiFreeTouchIds.Nodup ∧
  (∀ k ∈ s.xiFreeTouchIds, k ∉ slotsOf s) ∧
  (∀ k ∈ slotsOf s, k < s.currentTouchIdx) ∧
  (∀ k ∈ s.xiFreeTouchIds, k < s.currentTouchIdx) ∧
  (∀ k < s.currentTouchIdx, k ∈ slotsOf s ∨ k ∈ s.xiFreeTouchIds)

instance (s : TouchState) : Decidable (TouchInv s) := by
  unfold TouchInv; infer_instance

/-- One allocator call. -/
inductive TouchOp where
  | alloc (d : Int)
  | rel (d : Int)
  deriving Repr, DecidableEq

/-- Run a sequence of allocator calls from a state. -/
def runTouch (ops : List TouchOp) (s : TouchState) : TouchState :=
  match ops with
  | [] => s
  | TouchOp.alloc d :: rest => runTouch rest (allocateTouch d s).2
  | TouchOp.rel d :: rest => runTouch rest (releaseTouch d s)

/-! ## Well-known setting names (taken verbatim from the header) -/

/-- The constant returned by `XWindowSystem::getWindowScalingFactorSettingName`
in the header. -/
def getWindowScalingFactorSettingName : String := "Gdk/WindowScalingFactor"

/-- The constant returned by `XWindowSystem::getThemeNameSettingName` in the
header. -/
def getThemeNameSettingName : String := "Net/ThemeName"

/-! ## Settings Store (XSETTINGS)

The header declares `struct XSetting` (tagged integer/string/colour/invalid
value), and `class XSettings` with fields `lastUpdateSerial` and a
name-keyed `settings` map, the method `update()`, and a `Listener` list
receiving `settingChanged`. -/

/-- The tagged value of an `XSetting` (the header's `XSetting::Type` tags
together with the corresponding payload field; `invalid` is the
"not present / lookup failed" tag). -/
inductive XSettingVal where
  | integer (v : Int)
  | str (v : String)
  | colour (v : Nat)
  | invalid
  deriving Repr, DecidableEq

/-- The header's `struct XSetting`: a named tagged value. -/
structure XSetting where
  name : String
  val : XSettingVal
  deriving Repr, DecidableEq

/-- The header's `XSetting::isValid`: the type tag is not `invalid`. -/
def XSetting.isValid (s : XSetting) : Bool :=
  match s.val with
  | XSettingVal.invalid => false
  | _ => true

/-- One raw record of the XSETTINGS property stream: a type-tag byte, the
setting name, and the raw bytes of the type-specific payload. -/
structure XSettingsRecord where
  typeTag : Nat
  name : String
  payload : List Nat
  deriving Repr, DecidableEq

/-- Little-endian 32-bit decode of the first four bytes, 0 when fewer than
four bytes are present. -/
def decodeCard32 : List Nat → Nat
  | b0 :: b1 :: b2 :: b3 :: _ => b0 + 256 * b1 + 65536 * b2 + 16777216 * b3
  | _ => 0

/-- Bytes to text, one character per byte. -/
def bytesToString (l : List Nat) : String := String.mk (l.map Char.ofNat)

/-- Modelled from the spec: the per-record parsing inside
`XSettings::update` (its body is not in the tree).  Tag 0 is a fixed-width
integer, tag 1 a length-prefixed string whose declared length is honoured
exactly, tag 2 a fixed-width colour; an unknown tag or a truncated payload
yields an `invalid` setting. -/
def parseXSettingsRecord (r : XSettingsRecord) : XSetting :=
  if r.typeTag = 0 then
    if r.payload.length < 4 then ⟨r.name, XSettingVal.invalid⟩
    else ⟨r.name, XSettingVal.integer (Int.ofNat (decodeCard32 r.payload))⟩
  else if r.typeTag = 1 then
    if r.payload.length < 4 then ⟨r.name, XSettingVal.invalid⟩
    else
      let len := decodeCard32 (r.payload.take 4)
      let rest := r.payload.drop 4
      if rest.length < len then ⟨r.name, XSettingVal.invalid⟩
      else ⟨r.name, XSettingVal.str (bytesToString (rest.take len))⟩
  else if r.typeTag = 2 then
    if r.payload.length < 8 then ⟨r.name, XSettingVal.invalid⟩
    else ⟨r.name, XSettingVal.colour (decodeCard32 r.payload)⟩
  else ⟨r.name, XSettingVal.invalid⟩

/-- Modelled from the spec: the record-stream pass of `XSettings::update`:
records are parsed one at a time, an invalid (malformed or unknown-tag)
record is dropped and parsing continues with the remaining records. -/
def parseXSettingsStream : List XSettingsRecord → List XSetting
  | [] => []
  | r :: rs =>
    if (parseXSettingsRecord r).isValid then
      parseXSettingsRecord r :: parseXSettingsStream rs
    else parseXSettingsStream rs

/-- The content of the settings property: the embedded update serial and
the record stream. -/
structure SettingsBlob where
  serial : Int
  records : List XSettingsRecord
  deriving Repr, DecidableEq

/-- The state of the header's `class XSettings`: `lastUpdateSerial`
(initialised to -1 in the header) and the name-keyed settings map. -/
structure XSettings where
  lastUpdateSerial : Int
  settings : List (String × XSetting)
  deriving Repr, DecidableEq

/-- An `XSettings` object as freshly constructed (`lastUpdateSerial = -1`
per the header, no settings). -/
def initXSettings : XSettings := ⟨-1, []⟩

/-- Modelled from the spec: `XSettings::update` (body not in the tree).
It re-reads the settings property (`none` models an absent property, in
which case the store is inert); if the embedded serial equals
`lastUpdateSerial` it is a no-op, otherwise it re-parses the record
stream, replaces the settings map, and returns the settings whose value
changed (added, removed, or differing), in stream order, to be fired as
`settingChanged`. -/
def XSettings.update (blob : Option SettingsBlob) (st : XSettings) :
    XSettings × List XSetting :=
  match blob with
  | none => (st, [])
  | some b =>
    if b.serial = st.lastUpdateSerial then (st, [])
    else
      let parsed := parseXSettingsStream b.records
      let newSettings := parsed.map (fun x => (x.name, x))
      let changedNew := parsed.filter
        (fun x => decide (st.settings.lookup x.name ≠ some x))
      let removed := (st.settings.filter
        (fun p => decide (newSettings.lookup p.1 = none))).map
        (fun p => XSetting.mk p.1 XSettingVal.invalid)
      ({ lastUpdateSerial := b.serial, settings := newSettings },
       changedNew ++ removed)

/-- Modelled from the spec: the synchronous fan-out of `settingChanged` to
the registered listeners (listeners are identified by number): every
changed setting is delivered to every listener in registration order. -/
def notifyListeners (changed : List XSetting) (listeners : List Nat) :
    List (Nat × XSetting) :=
  (changed.map (fun c => listeners.map (fun l => (l, c)))).flatten

/-! ## Clipboard / Selection Manager

The header declares `copyTextToClipboard`, `getTextFromClipboard`,
`getLocalClipboardContent` and the field `localClipboardContent`. -/

/-- Clipboard-relevant state: whether this process currently owns the
clipboard selection, and the header's `localClipboardContent` cache. -/
structure ClipboardState where
  weOwnClipboard : Bool
  localClipboardContent : String
  deriving Repr, DecidableEq

/-- The clipboard state at startup: not owner, empty cache. -/
def initClipboardState : ClipboardState := ⟨false, ""⟩

/-- Modelled from the spec: `XWindowSystem::copyTextToClipboard` (body not
in the tree): claims ownership of the clipboard selection and stores the
text in `localClipboardContent`. -/
def copyTextToClipboard (text : String) (_s : ClipboardState) : ClipboardState :=
  { weOwnClipboard := true, localClipboardContent := text }

/-- Modelled from the spec: losing the selection to another client clears
the ownership flag but keeps `localClipboardContent` as a cache. -/
def loseClipboardOwnership (s : ClipboardState) : ClipboardState :=
  { s with weOwnClipboard := false }

/-- Modelled from the spec: `XWindowSystem::getTextFromClipboard` (body not
in the tree).  When this process owns the selection the local cache is
returned with no remote round-trip; otherwise one selection request is
issued and the call waits a bounded time: `remoteReply` is the owner's
response within that bound (`none` models timeout or refusal, yielding
empty text).  The result pairs the returned text with the number of remote
selection requests issued. -/
def getTextFromClipboard (remoteReply : Option String) (s : ClipboardState) :
    String × Nat :=
  if s.weOwnClipboard then (s.localClipboardContent, 0)
  else
    match remoteReply with
    | some t => (t, 1)
    | none => ("", 1)

/-- The header's `XWindowSystem::getLocalClipboardContent` (defined inline
in the header: it returns `localClipboardContent`). -/
def getLocalClipboardContent (s : ClipboardState) : String :=
  s.localClipboardContent

/-! ## Drag-and-Drop Coordinator: outgoing (source) direction -/

/-- Phases of an outgoing drag transaction. -/
inductive DragPhase where
  | idle
  | dragging
  | awaitingFinish
  deriving Repr, DecidableEq

/-- State of the outgoing-drag coordinator: the phase, the window currently
under the cursor, and whether that window's last status reply was a
positive (would-accept) one. -/
structure DragSourceState where
  phase : DragPhase
  targetWindow : Option Nat
  lastStatusAccept : Bool
  deriving Repr, DecidableEq

/-- The outgoing coordinator at rest. -/
def initDragSourceState : DragSourceState := ⟨DragPhase.idle, none, false⟩

/-- Protocol messages the outgoing coordinator can send to a target
window. -/
inductive DndMsg where
  | enter (w : Nat)
  | leave (w : Nat)
  | position (w : Nat)
  | drop (w : Nat)
  deriving Repr, DecidableEq

/-- Events driving the outgoing coordinator: drag initiation
(`externalDragFileInit` / `externalDragTextInit`), pointer motion over a
window (or over none), the hovered window's status reply, button release,
and the target's finished acknowledgment. -/
inductive DragEvent where
  | dragInit
  | motion (w : Option Nat)
  | statusReply (accept : Bool)
  | buttonRelease
  | finishedReply
  deriving Repr, DecidableEq

/-- Modelled from the spec: one step of the outgoing-drag coordinator begun
by `externalDragFileInit` / `externalDragTextInit` (bodies not in the
tree).  It tracks the window under the cursor with enter/leave/position
messages, records the hovered window's status replies (resetting on a
window change), and on button release sends `drop` only when the last
status was positive, otherwise sends `leave` and returns directly to idle.
Out-of-state events are ignored. -/
def dragSourceStep (e : DragEvent) (s : DragSourceState) :
    DragSourceState × List DndMsg :=
  match e, s.phase with
  | DragEvent.dragInit, DragPhase.idle =>
    ({ phase := DragPhase.dragging, targetWindow := none,
       lastStatusAccept := false }, [])
  | DragEvent.motion w, DragPhase.dragging =>
    if w = s.targetWindow then
      (s, match w with | some t => [DndMsg.position t] | none => [])
    else
      ({ phase := DragPhase.dragging, targetWindow := w,
         lastStatusAccept := false },
       (match s.targetWindow with | some t => [DndMsg.leave t] | none => []) ++
       (match w with
        | some t => [DndMsg.enter t, DndMsg.position t]
        | none => []))
  | DragEvent.statusReply a, DragPhase.dragging =>
    ({ s with lastStatusAccept := a }, [])
  | DragEvent.buttonRelease, DragPhase.dragging =>
    (match s.targetWindow, s.lastStatusAccept with
     | some t, true =>
       ({ s with phase := DragPhase.awaitingFinish }, [DndMsg.drop t])
     | some t, false => (initDragSourceState, [DndMsg.leave t])
     | none, _ => (initDragSourceState, []))
  | DragEvent.finishedReply, DragPhase.awaitingFinish =>
    (initDragSourceState, [])
  | _, _ => (s, [])

/-- Run the outgoing coordinator over an event list, collecting the sent
messages in order. -/
def runDragSource : List DragEvent → DragSourceState →
    DragSourceState × List DndMsg
  | [], s => (s, [])
  | e :: es, s =>
    let step := dragSourceStep e s
    let rest := runDragSource es step.1
    (rest.1, step.2 ++ rest.2)

/-- Invariant of the outgoing coordinator while no positive status reply
has ever been received: the recorded status is negative and no drop has
been committed (the phase is not the waiting-for-finished one). -/
def DragInv (s : DragSourceState) : Prop :=
  s.lastStatusAccept = false ∧ s.phase ≠ DragPhase.awaitingFinish

/-! ## Drag-and-Drop Coordinator: incoming (target) direction -/

/-- The MIME-type atoms this toolkit understands (the four entries of the
header's `Atoms::allowedMimeTypes`, file-list and plain-text forms). -/
def supportedMimeAtoms : List Nat := [1, 2, 3, 4]

/-- State of the incoming-drag coordinator: whether a foreign drag is being
tracked, and whether any offered MIME type is one the toolkit
understands. -/
structure DropTargetState where
  active : Bool
  canDrop : Bool
  deriving Repr, DecidableEq

/-- The incoming coordinator at rest. -/
def initDropTargetState : DropTargetState := ⟨false, false⟩

/-- Client messages a foreign drag source sends to this process, as routed
by `handleClientMessageEvent`. -/
inductive TargetEvent where
  | enterMsg (offeredTypes : List Nat)
  | positionMsg (windowWilling : Bool)
  | dropMsg
  | leaveMsg
  deriving Repr, DecidableEq

/-- Observable actions of the incoming coordinator: the status reply to the
source, a selection data request, the toolkit-level drop event, and the
finished reply. -/
inductive TargetOut where
  | statusMsg (accept : Bool)
  | dataRequest
  | toolkitDropEvent
  | finishedMsg
  deriving Repr, DecidableEq

/-- Modelled from the spec: one step of the incoming-drag handling inside
`handleClientMessageEvent` (body not in the tree).  On `Enter` it records
whether any offered type is understood; each `Position` is answered with a
status reflecting both that computation and the hit window's willingness;
on `Drop` it requests the data in the accepting case, while in the
rejecting case it requests nothing, fires no toolkit event, yet still
sends `Finished`. -/
def dropTargetStep (e : TargetEvent) (s : DropTargetState) :
    DropTargetState × List TargetOut :=
  match e with
  | TargetEvent.enterMsg types =>
    ({ active := true,
       canDrop := types.any (fun t => decide (t ∈ supportedMimeAtoms)) }, [])
  | TargetEvent.positionMsg willing =>
    if s.active then (s, [TargetOut.statusMsg (s.canDrop && willing)])
    else (s, [])
  | TargetEvent.dropMsg =>
    if s.active then
      if s.canDrop then (s, [TargetOut.dataRequest])
      else (initDropTargetState, [TargetOut.finishedMsg])
    else (s, [])
  | TargetEvent.leaveMsg => (initDropTargetState, [])

/-- Run the incoming coordinator over an event list, collecting its
observable actions in order. -/
def runDropTarget : List TargetEvent → DropTargetState →
    DropTargetState × List TargetOut
  | [], s => (s, [])
  | e :: es, s =>
    let step := dropTargetStep e s
    let rest := runDropTarget es step.1
    (rest.1, step.2 ++ rest.2)

/-! ## Configure-notify geometry diffing -/

/-- Window bounds as reported by a configure-notify event. -/
structure Rect where
  x : Int
  y : Int
  w : Int
  h : Int
  deriving Repr, DecidableEq

/-- The per-window geometry state the dispatcher diffs against. -/
structure WindowGeom where
  lastKnownBounds : Rect
  deriving Repr, DecidableEq

/-- Toolkit-level geometry change events. -/
inductive GeomChange where
  | moved
  | resized
  deriving Repr, DecidableEq

/-- Modelled from the spec: `XWindowSystem::handleConfigureNotifyEvent`
(body not in the tree): the reported bounds are diffed against the
last-known bounds; identical bounds produce no move/resize event, a change
updates the stored bounds and reports what differed. -/
def handleConfigureNotifyEvent (b : Rect) (s : WindowGeom) :
    WindowGeom × List GeomChange :=
  if b = s.lastKnownBounds then (s, [])
  else
    ({ lastKnownBounds := b },
     (if b.x = s.lastKnownBounds.x ∧ b.y = s.lastKnownBounds.y then []
      else [GeomChange.moved]) ++
     (if b.w = s.lastKnownBounds.w ∧ b.h = s.lastKnownBounds.h then []
      else [GeomChange.resized]))

/-! ### Helper lemmas about `natMin` and association-list lookup -/

theorem natMin_eq_none {l : List Nat} (h : natMin l = none) : l = [] := by
  cases l with
  | nil => rfl
  | cons x xs =>
    rw [natMin] at h
    cases hx : natMin xs <;> rw [hx] at h <;> simp at h

theorem natMin_mem {l : List Nat} {m : Nat} (h : natMin l = some m) : m ∈ l := by
  induction l generalizing m with
  | nil => simp [natMin] at h
  | cons x xs ih =>
    rw [natMin] at h
    cases hx : natMin xs with
    | none =>
      rw [hx] at h
      simp only [Option.some.injEq] at h
      simp [h]
    | some m' =>
      rw [hx] at h
      have h' : min x m' = m := by simpa using h
      rcases min_choice x m' with hc | hc
      · rw [hc] at h'; simp [h']
      · rw [hc] at h'
        exact List.mem_cons_of_mem _ (ih (h' ▸ hx))

theorem natMin_le {l : List Nat} {m : Nat} (h : natMin l = some m) :
    ∀ b ∈ l, m ≤ b := by
  induction l generalizing m with
  | nil => simp
  | cons x xs ih =>
    rw [natMin] at h
    intro b hb
    cases hx : natMin xs with
    | none =>
      rw [hx] at h
      simp only [Option.some.injEq] at h
      have hx0 : xs = [] := natMin_eq_none hx
      subst hx0
      simp only [List.mem_singleton] at hb
      simp [hb, h]
    | some m' =>
      rw [hx] at h
      have h' : min x m' = m := by simpa using h
      rcases List.mem_cons.mp hb with hbx | hb
      · rw [hbx, ← h']; exact min_le_left x m'
      · exact le_trans (h' ▸ min_le_right x m') (ih hx b hb)

theorem lookup_mem {l : List (Int × Nat)} {d : Int} {k : Nat}
    (h : l.lookup d = some k) : (d, k) ∈ l := by
  induction l with
  | nil => simp [List.lookup] at h
  | cons p ps ih =>
    obtain ⟨a, b⟩ := p
    simp only [List.lookup] at h
    by_cases hd : d = a
    · subst hd; simp at h; simp [h]
    · have : (d == a) = false := by simp [hd]
      rw [this] at h; simp at h
      exact List.mem_cons_of_mem _ (ih h)

theorem lookup_none_keys {l : List (Int × Nat)} {d : Int}
    (h : l.lookup d = none) : d ∉ l.map Prod.fst := by
  induction l with
  | nil => simp
  | cons p ps ih =>
    obtain ⟨a, b⟩ := p
    simp only [List.lookup] at h
    by_cases hd : d = a
    · subst hd; simp at h
    · have hba : (d == a) = false := by simp [hd]
      rw [hba] at h
      have h' : List.lookup d ps = none := h
      simp only [List.map_cons, List.mem_cons]
      push_neg
      exact ⟨hd, ih h'⟩

theorem lookup_cons_self {l : List (Int × Nat)} {d : Int} {k : Nat} :
    ((d, k) :: l).lookup d = some k := by
  simp [List.lookup]

/-! ### Invariant preservation for the touch allocator -/

theorem touchInv_alloc {s : TouchState} (d : Int) (h : TouchInv s) :
    TouchInv (allocateTouch d s).2 := by
  obtain ⟨h1, h2, h3, h4, h5, h6, h7⟩ := h
  cases hl : s.xiTouchIds.lookup d with
  | some k => simpa [allocateTouch, hl] using ⟨h1, h2, h3, h4, h5, h6, h7⟩
  | none =>
    have hkey := lookup_none_keys hl
    cases hm : natMin s.xiFreeTouchIds with
    | none =>
      have hfree : s.xiFreeTouchIds = [] := natMin_eq_none hm
      simp only [allocateTouch, hl, hm]
      refine ⟨?_, ?_, ?_, ?_, ?_, ?_, ?_⟩
      · simp only [devicesOf, List.map_cons, List.nodup_cons]
        exact ⟨hkey, h1⟩
      · simp only [slotsOf, List.map_cons, List.nodup_cons]
        refine ⟨?_, h2⟩
        intro hc
        exact absurd (h5 _ hc) (Nat.lt_irrefl _)
      · exact h3
      · intro k hk
        rw [hfree] at hk
        simp at hk
      · intro k hk
        show k < s.currentTouchIdx + 1
        simp only [slotsOf, List.map_cons] at hk
        rcases List.mem_cons.mp hk with hk | hk
        · omega
        · have := h5 _ hk; omega
      · intro k hk
        rw [hfree] at hk
        simp at hk
      · intro k hk
        have hk2 : k < s.currentTouchIdx + 1 := hk
        by_cases hk' : k < s.currentTouchIdx
        · rcases h7 k hk' with hs | hf
          · left
            simp only [slotsOf, List.map_cons]
            exact List.mem_cons_of_mem _ hs
          · rw [hfree] at hf; simp at hf
        · have hkeq : k = s.currentTouchIdx := by omega
          left
          simp only [slotsOf, List.map_cons]
          rw [hkeq]
          exact List.mem_cons_self _ _
    | some m =>
      have hmem : m ∈ s.xiFreeTouchIds := natMin_mem hm
      have hle : ∀ b ∈ s.xiFreeTouchIds, m ≤ b := natMin_le hm
      simp only [allocateTouch, hl, hm]
      refine ⟨?_, ?_, ?_, ?_, ?_, ?_, ?_⟩
      · simp only [devicesOf, List.map_cons, List.nodup_cons]
        exact ⟨hkey, h1⟩
      · simp only [slotsOf, List.map_cons, List.nodup_cons]
        exact ⟨h4 m hmem, h2⟩
      · exact h3.erase m
      · intro k hk
        have hk' : k ≠ m ∧ k ∈ s.xiFreeTouchIds := (h3.mem_erase_iff).mp hk
        simp only [slotsOf, List.map_cons, List.mem_cons]
        push_neg
        exact ⟨hk'.1, h4 k hk'.2⟩
      · intro k hk
        simp only [slotsOf, List.map_cons] at hk
        rcases List.mem_cons.mp hk with hk | hk
        · rw [hk]; exact h6 m hmem
        · exact h5 _ hk
      · intro k hk
        exact h6 k (List.mem_of_mem_erase hk)
      · intro k hk
        rcases h7 k hk with hs | hf
        · left
          simp only [slotsOf, List.map_cons]
          exact List.mem_cons_of_mem _ hs
        · by_cases hkm : k = m
          · left
            simp only [slotsOf, List.map_cons]
            rw [hkm]
            exact List.mem_cons_self _ _
          · right
            exact (h3.mem_erase_iff).mpr ⟨hkm, hf⟩

theorem touchInv_release {s : TouchState} (d : Int) (h : TouchInv s) :
    TouchInv (releaseTouch d s) := by
  obtain ⟨h1, h2, h3, h4, h5, h6, h7⟩ := h
  cases hl : s.xiTouchIds.lookup d with
  | none => simpa [releaseTouch, hl] using ⟨h1, h2, h3, h4, h5, h6, h7⟩
  | some k =>
    have hdk : (d, k) ∈ s.xiTouchIds := lookup_mem hl
    have hks : k ∈ slotsOf s := by
      simp only [slotsOf, List.mem_map]; exact ⟨(d, k), hdk, rfl⟩
    have hsub : (s.xiTouchIds.filter (fun p => decide (p.1 ≠ d))).Sublist
        s.xiTouchIds := List.filter_sublist _
    have hmemF : ∀ {q : Int × Nat},
        q ∈ s.xiTouchIds.filter (fun p => decide (p.1 ≠ d)) →
        q ∈ s.xiTouchIds ∧ q.1 ≠ d := by
      intro q hq
      have := List.mem_filter.mp hq
      exact ⟨this.1, by simpa using this.2⟩
    have hkNotIn : ∀ {j : Nat},
        j ∈ (s.xiTouchIds.filter (fun p => decide (p.1 ≠ d))).map Prod.snd →
        j ∈ slotsOf s := by
      intro j hj
      simp only [slotsOf, List.mem_map] at hj ⊢
      obtain ⟨q, hq, rfl⟩ := hj
      exact ⟨q, (hmemF hq).1, rfl⟩
    have h1' : (List.map Prod.fst s.xiTouchIds).Nodup := h1
    have h2' : (List.map Prod.snd s.xiTouchIds).Nodup := h2
    simp only [releaseTouch, hl]
    refine ⟨?_, ?_, ?_, ?_, ?_, ?_, ?_⟩
    · exact List.Nodup.sublist (hsub.map Prod.fst) h1
    · exact List.Nodup.sublist (hsub.map Prod.snd) h2
    · refine List.nodup_cons.mpr ⟨?_, h3⟩
      intro hc
      exact h4 k hc hks
    · intro j hj
      simp only [slotsOf, List.mem_map]
      rintro ⟨q, hq, rfl⟩
      obtain ⟨hqmem, hqne⟩ := hmemF hq
      rcases List.mem_cons.mp hj with hj | hj
      · have hq2 : Prod.snd q = Prod.snd (d, k) := hj
        have hqe : q = (d, k) := List.inj_on_of_nodup_map h2' hqmem hdk hq2
        exact hqne (by rw [hqe])
      · exact h4 _ hj (List.mem_map.mpr ⟨q, hqmem, rfl⟩)
    · intro j hj
      exact h5 j (hkNotIn hj)
    · intro j hj
      rcases List.mem_cons.mp hj with hj | hj
      · rw [hj]; exact h5 k hks
      · exact h6 j hj
    · intro j hj
      rcases h7 j hj with hs | hf
      · simp only [slotsOf, List.mem_map] at hs
        obtain ⟨q, hq, rfl⟩ := hs
        by_cases hqk : q.2 = k
        · right
          exact List.mem_cons.mpr (Or.inl hqk)
        · have hqd : q.1 ≠ d := by
            intro hqd
            have hq1 : Prod.fst q = Prod.fst (d, k) := hqd
            have hqe : q = (d, k) := List.inj_on_of_nodup_map h1' hq hdk hq1
            exact hqk (by rw [hqe])
          left
          simp only [slotsOf, List.mem_map]
          exact ⟨q, List.mem_filter.mpr ⟨hq, by simpa using hqd⟩, rfl⟩
      · right
        exact List.mem_cons_of_mem _ hf

theorem touchInv_run (ops : List TouchOp) {s : TouchState} (h : TouchInv s) :
    TouchInv (runTouch ops s) := by
  induction ops generalizing s with
  | nil => exact h
  | cons op rest ih =>
    cases op with
    | alloc d => exact ih (touchInv_alloc d h)
    | rel d => exact ih (touchInv_release d h)

theorem touchInv_init : TouchInv initTouchState := by decide

/-! ### Helper lemmas for the drag-and-drop coordinators -/

theorem dragInv_step (e : DragEvent) {s : DragSourceState} (h : DragInv s)
    (he : e ≠ DragEvent.statusReply true) :
    DragInv (dragSourceStep e s).1 ∧
    ∀ w, DndMsg.drop w ∉ (dragSourceStep e s).2 := by
  obtain ⟨ha, hp⟩ := h
  cases e with
  | dragInit =>
    cases hph : s.phase with
    | idle => simp [dragSourceStep, hph, DragInv]
    | dragging => simp [dragSourceStep, hph, DragInv, ha]
    | awaitingFinish => exact absurd hph hp
  | motion w =>
    cases hph : s.phase with
    | idle => simp [dragSourceStep, hph, DragInv, ha]
    | dragging =>
      cases w with
      | none =>
        cases htw : s.targetWindow with
        | none => simp [dragSourceStep, hph, htw, DragInv, ha]
        | some t => simp [dragSourceStep, hph, htw, DragInv, ha]
      | some u =>
        cases htw : s.targetWindow with
        | none => simp [dragSourceStep, hph, htw, DragInv, ha]
        | some t =>
          by_cases hut : u = t
          · simp [dragSourceStep, hph, htw, hut, DragInv, ha]
          · simp [dragSourceStep, hph, htw, hut, DragInv, ha]
    | awaitingFinish => exact absurd hph hp
  | statusReply a =>
    have haf : a = false := by
      cases a with
      | false => rfl
      | true => exact absurd rfl he
    subst haf
    cases hph : s.phase with
    | idle => simp [dragSourceStep, hph, DragInv, ha]
    | dragging => simp [dragSourceStep, hph, DragInv]
    | awaitingFinish => exact absurd hph hp
  | buttonRelease =>
    cases hph : s.phase with
    | idle => simp [dragSourceStep, hph, DragInv, ha]
    | dragging =>
      cases htw : s.targetWindow <;>
        simp [dragSourceStep, hph, htw, ha, DragInv, initDragSourceState]
    | awaitingFinish => exact absurd hph hp
  | finishedReply =>
    cases hph : s.phase with
    | idle => simp [dragSourceStep, hph, DragInv, ha]
    | dragging => simp [dragSourceStep, hph, DragInv, ha]
    | awaitingFinish => exact absurd hph hp

theorem dragInv_run (evs : List DragEvent) {s : DragSourceState}
    (h : DragInv s) (hno : ∀ e ∈ evs, e ≠ DragEvent.statusReply true) :
    DragInv (runDragSource evs s).1 ∧
    ∀ w, DndMsg.drop w ∉ (runDragSource evs s).2 := by
  induction evs generalizing s with
  | nil => exact ⟨h, by simp [runDragSource]⟩
  | cons e es ih =>
    have hstep := dragInv_step e h (hno e (List.mem_cons_self e es))
    have hrest := ih hstep.1 (fun e' he' => hno e' (List.mem_cons_of_mem _ he'))
    refine ⟨?_, ?_⟩
    · simpa [runDragSource] using hrest.1
    · intro w
      simp only [runDragSource, List.mem_append]
      push_neg
      exact ⟨hstep.2 w, hrest.2 w⟩

theorem runDragSource_append (xs ys : List DragEvent) (s : DragSourceState) :
    runDragSource (xs ++ ys) s =
      ((runDragSource ys (runDragSource xs s).1).1,
       (runDragSource xs s).2 ++ (runDragSource ys (runDragSource xs s).1).2) := by
  induction xs generalizing s with
  | nil => simp [runDragSource]
  | cons x xs ih => simp [runDragSource, ih, List.append_assoc]

theorem runDropTarget_positions (ws : List Bool) {s : DropTargetState}
    (ha : s.active = true) :
    runDropTarget (ws.map TargetEvent.positionMsg) s =
      (s, ws.map (fun willing => TargetOut.statusMsg (s.canDrop && willing))) := by
  induction ws with
  | nil => simp [runDropTarget]
  | cons w ws ih =>
    simp [runDropTarget, dropTargetStep, ha, ih]

/-! ## Claim theorems -/

/-- C1: `allocate(deviceId)` on the Touch-ID Allocator returns the existing
slot when the device is already bound; otherwise it returns the
lowest-numbered currently-free slot and binds the device to it.  On the
concrete trace allocate(A)=0, allocate(B)=1, release(A), allocate(C)=0,
release(B), a subsequent allocate(D) returns 1 (lowest-first reuse of
freed slots). -/
theorem c1_allocate_returns_lowest_free (s : TouchState) (d : Int)
    (h : TouchInv s) :
    (∀ k, s.xiTouchIds.lookup d = some k → allocateTouch d s = (k, s)) ∧
    (s.xiTouchIds.lookup d = none →
      (allocateTouch d s).1 ∉ slotsOf s ∧
      (∀ j < (allocateTouch d s).1, j ∈ slotsOf s) ∧
      (allocateTouch d s).2.xiTouchIds.lookup d = some (allocateTouch d s).1) ∧
    ((allocateTouch 0 initTouchState).1 = 0 ∧
     (allocateTouch 1 (allocateTouch 0 initTouchState).2).1 = 1 ∧
     (allocateTouch 2 (releaseTouch 0
        (allocateTouch 1 (allocateTouch 0 initTouchState).2).2)).1 = 0 ∧
     (allocateTouch 3 (releaseTouch 1 (allocateTouch 2 (releaseTouch 0
        (allocateTouch 1 (allocateTouch 0 initTouchState).2).2)).2)).1 = 1) := by
  obtain ⟨h1, h2, h3, h4, h5, h6, h7⟩ := h
  refine ⟨?_, ?_, by decide⟩
  · intro k hk
    simp [allocateTouch, hk]
  · intro hl
    cases hm : natMin s.xiFreeTouchIds with
    | none =>
      have hfree : s.xiFreeTouchIds = [] := natMin_eq_none hm
      simp only [allocateTouch, hl, hm]
      refine ⟨?_, ?_, ?_⟩
      · intro hc
        exact absurd (h5 _ hc) (Nat.lt_irrefl _)
      · intro j hj
        rcases h7 j hj with hs | hf
        · exact hs
        · rw [hfree] at hf; simp at hf
      · exact lookup_cons_self
    | some m =>
      have hmem := natMin_mem hm
      have hle := natMin_le hm
      simp only [allocateTouch, hl, hm]
      refine ⟨h4 m hmem, ?_, lookup_cons_self⟩
      intro j hj
      have hjc : j < s.currentTouchIdx := lt_trans hj (h6 m hmem)
      rcases h7 j hjc with hs | hf
      · exact hs
      · exact absurd (hle j hf) (by omega)

/-- Witness for C1 at the empty allocator and device id 0. -/
theorem c1_allocate_returns_lowest_free_witness :
    TouchInv initTouchState ∧
    ((∀ k, initTouchState.xiTouchIds.lookup 0 = some k →
        allocateTouch 0 initTouchState = (k, initTouchState)) ∧
     (initTouchState.xiTouchIds.lookup 0 = none →
       (allocateTouch 0 initTouchState).1 ∉ slotsOf initTouchState ∧
       (∀ j < (allocateTouch 0 initTouchState).1, j ∈ slotsOf initTouchState) ∧
       (allocateTouch 0 initTouchState).2.xiTouchIds.lookup 0 =
         some (allocateTouch 0 initTouchState).1) ∧
     ((allocateTouch 0 initTouchState).1 = 0 ∧
      (allocateTouch 1 (allocateTouch 0 initTouchState).2).1 = 1 ∧
      (allocateTouch 2 (releaseTouch 0
         (allocateTouch 1 (allocateTouch 0 initTouchState).2).2)).1 = 0 ∧
      (allocateTouch 3 (releaseTouch 1 (allocateTouch 2 (releaseTouch 0
         (allocateTouch 1 (allocateTouch 0 initTouchState).2).2)).2)).1 = 1)) :=
  ⟨by decide, c1_allocate_returns_lowest_free initTouchState 0 (by decide)⟩

/-- C2: after every finite sequence of allocate/release calls the binding
is a bijection between bound slots and live device identifiers (device
ids and slots are each duplicate-free), and releasing an unbound
identifier is a no-op that changes nothing. -/
theorem c2_touch_bijection_release_noop (ops : List TouchOp) :
    (devicesOf (runTouch ops initTouchState)).Nodup ∧
    (slotsOf (runTouch ops initTouchState)).Nodup ∧
    (∀ (s : TouchState) (d : Int),
      s.xiTouchIds.lookup d = none → releaseTouch d s = s) := by
  have h := touchInv_run ops touchInv_init
  refine ⟨h.1, h.2.1, ?_⟩
  intro s d hl
  simp [releaseTouch, hl]

/-- Witness for C2 on a concrete call sequence and an unbound release. -/
theorem c2_touch_bijection_release_noop_witness :
    (devicesOf (runTouch [TouchOp.alloc 7, TouchOp.rel 7, TouchOp.alloc 2]
        initTouchState)).Nodup ∧
    (slotsOf (runTouch [TouchOp.alloc 7, TouchOp.rel 7, TouchOp.alloc 2]
        initTouchState)).Nodup ∧
    (initTouchState.xiTouchIds.lookup 5 = none ∧
     releaseTouch 5 initTouchState = initTouchState) :=
  ⟨(c2_touch_bijection_release_noop
      [TouchOp.alloc 7, TouchOp.rel 7, TouchOp.alloc 2]).1,
   (c2_touch_bijection_release_noop
      [TouchOp.alloc 7, TouchOp.rel 7, TouchOp.alloc 2]).2.1,
   by decide,
   (c2_touch_bijection_release_noop []).2.2 initTouchState 5 (by decide)⟩

/-- C3: `XSettings::update` with an embedded serial equal to
`lastUpdateSerial` is a no-op: the stored state is unchanged and zero
`settingChanged` deliveries reach any registered listener. -/
theorem c3_update_unchanged_serial_noop (st : XSettings) (b : SettingsBlob)
    (h : b.serial = st.lastUpdateSerial) :
    XSettings.update (some b) st = (st, []) ∧
    ∀ listeners : List Nat,
      notifyListeners (XSettings.update (some b) st).2 listeners = [] := by
  have h1 : XSettings.update (some b) st = (st, []) := by
    simp [XSettings.update, h]
  refine ⟨h1, ?_⟩
  intro listeners
  rw [h1]
  simp [notifyListeners]

/-- Witness for C3 at a fresh store and a blob with the same serial. -/
theorem c3_update_unchanged_serial_noop_witness :
    (SettingsBlob.mk (-1) []).serial = initXSettings.lastUpdateSerial ∧
    (XSettings.update (some (SettingsBlob.mk (-1) [])) initXSettings =
        (initXSettings, []) ∧
     ∀ listeners : List Nat,
       notifyListeners
         (XSettings.update (some (SettingsBlob.mk (-1) [])) initXSettings).2
         listeners = []) :=
  ⟨rfl, c3_update_unchanged_serial_noop initXSettings (SettingsBlob.mk (-1) []) rfl⟩

/-- C4: a malformed settings record (truncated payload or unknown tag)
causes only that record to be dropped while parsing continues with the
remaining records; a stream of one valid integer record and one truncated
string record yields exactly one stored setting. -/
theorem c4_malformed_record_skipped (pre post : List XSettingsRecord)
    (r : XSettingsRecord) (h : (parseXSettingsRecord r).isValid = false) :
    parseXSettingsStream (pre ++ r :: post) = parseXSettingsStream (pre ++ post) ∧
    (parseXSettingsStream
       [⟨0, "Gdk/WindowScalingFactor", [2, 0, 0, 0]⟩,
        ⟨1, "Net/ThemeName", [10, 0, 0, 0, 65]⟩]).length = 1 ∧
    ((XSettings.update (some ⟨0,
       [⟨0, "Gdk/WindowScalingFactor", [2, 0, 0, 0]⟩,
        ⟨1, "Net/ThemeName", [10, 0, 0, 0, 65]⟩]⟩)
       initXSettings).1.settings.length = 1) := by
  refine ⟨?_, by decide, by decide⟩
  induction pre with
  | nil => simp [parseXSettingsStream, h]
  | cons p ps ih =>
    simp only [List.cons_append, parseXSettingsStream, List.append_eq]
    rw [ih]

/-- Witness for C4 at a concrete truncated string record. -/
theorem c4_malformed_record_skipped_witness :
    (parseXSettingsRecord ⟨1, "x", [5, 0, 0, 0]⟩).isValid = false ∧
    (parseXSettingsStream ([] ++ (⟨1, "x", [5, 0, 0, 0]⟩ : XSettingsRecord) :: []) =
        parseXSettingsStream ([] ++ []) ∧
     (parseXSettingsStream
        [⟨0, "Gdk/WindowScalingFactor", [2, 0, 0, 0]⟩,
         ⟨1, "Net/ThemeName", [10, 0, 0, 0, 65]⟩]).length = 1 ∧
     ((XSettings.update (some ⟨0,
        [⟨0, "Gdk/WindowScalingFactor", [2, 0, 0, 0]⟩,
         ⟨1, "Net/ThemeName", [10, 0, 0, 0, 65]⟩]⟩)
        initXSettings).1.settings.length = 1)) :=
  ⟨by decide, c4_malformed_record_skipped [] [] ⟨1, "x", [5, 0, 0, 0]⟩ (by decide)⟩

/-- C5: after `copyTextToClipboard(t)` this process owns the clipboard
selection, and both `getTextFromClipboard` and `getLocalClipboardContent`
return `t`, the former from the local cache with zero remote selection
requests issued. -/
theorem c5_clipboard_owner_serves_local (t : String) (s : ClipboardState)
    (reply : Option String) :
    (copyTextToClipboard t s).weOwnClipboard = true ∧
    getTextFromClipboard reply (copyTextToClipboard t s) = (t, 0) ∧
    getLocalClipboardContent (copyTextToClipboard t s) = t := by
  refine ⟨rfl, ?_, rfl⟩
  simp [getTextFromClipboard, copyTextToClipboard]

/-- C6: when this process is not the owner, `getTextFromClipboard` issues
exactly one bounded remote selection request; if no reply arrives within
the bound (or the owner refuses) it returns the empty string, and a reply
within the bound is returned as-is. -/
theorem c6_clipboard_timeout_returns_empty (s : ClipboardState)
    (reply : Option String) (h : s.weOwnClipboard = false) :
    (getTextFromClipboard reply s).2 = 1 ∧
    (reply = none → getTextFromClipboard reply s = ("", 1)) ∧
    (∀ t, reply = some t → getTextFromClipboard reply s = (t, 1)) := by
  refine ⟨?_, ?_, ?_⟩
  · cases reply <;> simp [getTextFromClipboard, h]
  · rintro rfl
    simp [getTextFromClipboard, h]
  · rintro t rfl
    simp [getTextFromClipboard, h]

/-- Witness for C6 at a non-owning state and a timed-out fetch. -/
theorem c6_clipboard_timeout_returns_empty_witness :
    (ClipboardState.mk false "cache").weOwnClipboard = false ∧
    ((getTextFromClipboard none (ClipboardState.mk false "cache")).2 = 1 ∧
     ((none : Option String) = none →
       getTextFromClipboard none (ClipboardState.mk false "cache") = ("", 1)) ∧
     (∀ t, (none : Option String) = some t →
       getTextFromClipboard none (ClipboardState.mk false "cache") = (t, 1))) :=
  ⟨rfl, c6_clipboard_timeout_returns_empty (ClipboardState.mk false "cache") none rfl⟩

/-- C7: an outgoing drag never sends `drop` without a prior positive status
reply: over any event sequence containing no positive status, the run
initiated by `externalDragFileInit`/`externalDragTextInit` and ended by a
button release sends no `drop` message, finishes in the idle phase, and if
a window was hovered when the button was released it has been sent a
`leave` message. -/
theorem c7_no_drop_without_positive_status (evs : List DragEvent)
    (hno : ∀ e ∈ evs, e ≠ DragEvent.statusReply true) :
    (∀ w, DndMsg.drop w ∉
      (runDragSource (DragEvent.dragInit :: (evs ++ [DragEvent.buttonRelease]))
        initDragSourceState).2) ∧
    ((runDragSource (DragEvent.dragInit :: (evs ++ [DragEvent.buttonRelease]))
        initDragSourceState).1.phase = DragPhase.idle) ∧
    (∀ t,
      (runDragSource (DragEvent.dragInit :: evs)
          initDragSourceState).1.targetWindow = some t →
      (runDragSource (DragEvent.dragInit :: evs)
          initDragSourceState).1.phase = DragPhase.dragging →
      DndMsg.leave t ∈
        (runDragSource (DragEvent.dragInit :: (evs ++ [DragEvent.buttonRelease]))
          initDragSourceState).2) := by
  have hcons : ∀ (rest : List DragEvent),
      runDragSource (DragEvent.dragInit :: rest) initDragSourceState =
        runDragSource rest ⟨DragPhase.dragging, none, false⟩ := by
    intro rest
    simp [runDragSource, dragSourceStep, initDragSourceState]
  have h1 : DragInv (⟨DragPhase.dragging, none, false⟩ : DragSourceState) :=
    ⟨rfl, by decide⟩
  obtain ⟨hmInv, hmNoDrop⟩ := dragInv_run evs h1 hno
  obtain ⟨hacc, hphne⟩ := hmInv
  have hrel :
      (dragSourceStep DragEvent.buttonRelease
        (runDragSource evs
          (⟨DragPhase.dragging, none, false⟩ : DragSourceState)).1).1.phase
          = DragPhase.idle ∧
      (∀ w, DndMsg.drop w ∉
        (dragSourceStep DragEvent.buttonRelease
          (runDragSource evs
            (⟨DragPhase.dragging, none, false⟩ : DragSourceState)).1).2) ∧
      (∀ t,
        (runDragSource evs
          (⟨DragPhase.dragging, none, false⟩ : DragSourceState)).1.targetWindow
            = some t →
        (runDragSource evs
          (⟨DragPhase.dragging, none, false⟩ : DragSourceState)).1.phase
            = DragPhase.dragging →
        DndMsg.leave t ∈
          (dragSourceStep DragEvent.buttonRelease
            (runDragSource evs
              (⟨DragPhase.dragging, none, false⟩ : DragSourceState)).1).2) := by
    cases hph : (runDragSource evs
        (⟨DragPhase.dragging, none, false⟩ : DragSourceState)).1.phase with
    | idle => simp [dragSourceStep, hph]
    | dragging =>
      cases htw : (runDragSource evs
          (⟨DragPhase.dragging, none, false⟩ : DragSourceState)).1.targetWindow with
      | none => simp [dragSourceStep, hph, htw, hacc, initDragSourceState]
      | some t0 => simp [dragSourceStep, hph, htw, hacc, initDragSourceState]
    | awaitingFinish => exact absurd hph hphne
  refine ⟨?_, ?_, ?_⟩
  · intro w
    rw [hcons, runDragSource_append]
    simp only [List.mem_append]
    push_neg
    refine ⟨hmNoDrop w, ?_⟩
    simp only [runDragSource, List.append_nil]
    exact hrel.2.1 w
  · rw [hcons, runDragSource_append]
    simp only [runDragSource]
    exact hrel.1
  · intro t htw hph
    rw [hcons] at htw hph
    rw [hcons, runDragSource_append]
    simp only [List.mem_append]
    right
    simp only [runDragSource, List.append_nil]
    exact hrel.2.2 t htw hph

/-- Witness for C7 on a drag over window 9 that only ever receives a
negative status. -/
theorem c7_no_drop_without_positive_status_witness :
    (∀ e ∈ [DragEvent.motion (some 9), DragEvent.statusReply false],
        e ≠ DragEvent.statusReply true) ∧
    ((∀ w, DndMsg.drop w ∉
       (runDragSource (DragEvent.dragInit ::
          ([DragEvent.motion (some 9), DragEvent.statusReply false] ++
            [DragEvent.buttonRelease])) initDragSourceState).2) ∧
     ((runDragSource (DragEvent.dragInit ::
          ([DragEvent.motion (some 9), DragEvent.statusReply false] ++
            [DragEvent.buttonRelease])) initDragSourceState).1.phase
        = DragPhase.idle) ∧
     (∀ t,
       (runDragSource (DragEvent.dragInit ::
           [DragEvent.motion (some 9), DragEvent.statusReply false])
           initDragSourceState).1.targetWindow = some t →
       (runDragSource (DragEvent.dragInit ::
           [DragEvent.motion (some 9), DragEvent.statusReply false])
           initDragSourceState).1.phase = DragPhase.dragging →
       DndMsg.leave t ∈
         (runDragSource (DragEvent.dragInit ::
            ([DragEvent.motion (some 9), DragEvent.statusReply false] ++
              [DragEvent.buttonRelease])) initDragSourceState).2)) :=
  ⟨by decide,
   c7_no_drop_without_positive_status
     [DragEvent.motion (some 9), DragEvent.statusReply false] (by decide)⟩

/-- C8: an `Enter` offering only MIME types the toolkit does not
understand makes every subsequent `Position` answered with a rejecting
status, and a `Drop` in that state requests no data and fires no toolkit
drop event, yet still sends `Finished`. -/
theorem c8_unsupported_types_rejected (types : List Nat) (ws : List Bool)
    (h : ∀ t ∈ types, t ∉ supportedMimeAtoms) :
    ((dropTargetStep (TargetEvent.enterMsg types)
        initDropTargetState).1.canDrop = false) ∧
    ((runDropTarget (ws.map TargetEvent.positionMsg)
        (dropTargetStep (TargetEvent.enterMsg types) initDropTargetState).1).2
      = ws.map (fun _ => TargetOut.statusMsg false)) ∧
    ((dropTargetStep TargetEvent.dropMsg
        (runDropTarget (ws.map TargetEvent.positionMsg)
          (dropTargetStep (TargetEvent.enterMsg types)
            initDropTargetState).1).1).2
      = [TargetOut.finishedMsg]) := by
  have hcan : types.any (fun t => decide (t ∈ supportedMimeAtoms)) = false := by
    rw [List.any_eq_false]
    intro t ht
    simpa using h t ht
  have hs1 : dropTargetStep (TargetEvent.enterMsg types) initDropTargetState
      = (⟨true, false⟩, []) := by
    simp [dropTargetStep, hcan]
  have hpos := runDropTarget_positions ws
    (s := (⟨true, false⟩ : DropTargetState)) rfl
  refine ⟨?_, ?_, ?_⟩
  · simp [dropTargetStep, hcan]
  · simp [dropTargetStep, hcan, hpos]
  · simp [dropTargetStep, hcan, hpos]

/-- Witness for C8 at an enter offering only the unsupported type 99 and
two position messages. -/
theorem c8_unsupported_types_rejected_witness :
    (∀ t ∈ [99], t ∉ supportedMimeAtoms) ∧
    (((dropTargetStep (TargetEvent.enterMsg [99])
         initDropTargetState).1.canDrop = false) ∧
     ((runDropTarget ([true, false].map TargetEvent.positionMsg)
         (dropTargetStep (TargetEvent.enterMsg [99]) initDropTargetState).1).2
       = [true, false].map (fun _ => TargetOut.statusMsg false)) ∧
     ((dropTargetStep TargetEvent.dropMsg
         (runDropTarget ([true, false].map TargetEvent.positionMsg)
           (dropTargetStep (TargetEvent.enterMsg [99])
             initDropTargetState).1).1).2
       = [TargetOut.finishedMsg])) :=
  ⟨by decide, c8_unsupported_types_rejected [99] [true, false] (by decide)⟩

/-- C9: a configure-notify whose reported bounds equal the last-known
bounds produces no move/resize change, and repeated identical geometry
events are idempotent after the first. -/
theorem c9_configure_identical_bounds_noop (s : WindowGeom) (b : Rect) :
    (b = s.lastKnownBounds → handleConfigureNotifyEvent b s = (s, [])) ∧
    handleConfigureNotifyEvent b (handleConfigureNotifyEvent b s).1 =
      ((handleConfigureNotifyEvent b s).1, []) := by
  constructor
  · intro hb
    simp [handleConfigureNotifyEvent, hb]
  · by_cases hb : b = s.lastKnownBounds
    · simp [handleConfigureNotifyEvent, hb]
    · simp [handleConfigureNotifyEvent, hb]

/-- Witness for C9 at concrete equal bounds. -/
theorem c9_configure_identical_bounds_noop_witness :
    Rect.mk 0 0 320 240 = (WindowGeom.mk (Rect.mk 0 0 320 240)).lastKnownBounds ∧
    handleConfigureNotifyEvent (Rect.mk 0 0 320 240)
      (WindowGeom.mk (Rect.mk 0 0 320 240)) =
        (WindowGeom.mk (Rect.mk 0 0 320 240), []) ∧
    handleConfigureNotifyEvent (Rect.mk 0 0 320 240)
      (handleConfigureNotifyEvent (Rect.mk 0 0 320 240)
        (WindowGeom.mk (Rect.mk 0 0 320 240))).1 =
      ((handleConfigureNotifyEvent (Rect.mk 0 0 320 240)
        (WindowGeom.mk (Rect.mk 0 0 320 240))).1, []) :=
  ⟨rfl,
   (c9_configure_identical_bounds_noop
      (WindowGeom.mk (Rect.mk 0 0 320 240)) (Rect.mk 0 0 320 240)).1 rfl,
   (c9_configure_identical_bounds_noop
      (WindowGeom.mk (Rect.mk 0 0 320 240)) (Rect.mk 0 0 320 240)).2⟩

/-- C10: the well-known settings-key accessors are constants: the
window-scaling-factor key is exactly "Gdk/WindowScalingFactor" and the
theme-name key is exactly "Net/ThemeName". -/
theorem c10_setting_name_constants :
    getWindowScalingFactorSettingName = "Gdk/WindowScalingFactor" ∧
    getThemeNameSettingName = "Net/ThemeName" :=
  ⟨rfl, rfl⟩

end JuceX11
